import Mathlib

/-!
Shallow embedding of `src/job_alert.py` (the JobAlert pipeline):
a job-board poller that fetches job postings through the Firecrawl API
(structured-extract mode with a raw-scrape fallback), parses HTML for
anchors, deduplicates records against a persisted seen-id set, and sends
an email digest through the Resend API.

Modelling conventions:
* Python/JSON values are modelled by the inductive `Json` below; Python
  dicts are association lists (first binding wins, as in `dict` where
  keys are unique anyway).
* Python's built-in `hash` is a per-process oracle, passed around as a
  parameter `pyhash : Json → Int` (CPython salts string hashes per
  process, so distinct runs correspond to distinct oracles).
* `requests` calls are modelled by an outcome oracle mapping each
  (endpoint, payload) combination to an abstract `HttpResult`.
  Following requests >= 2.27, a JSON-decode failure of a response body
  raises `requests.exceptions.JSONDecodeError`, a subclass of
  `RequestException`, hence it is caught by the fetchers' handlers;
  `HttpResult` therefore carries the body as `Except Unit Json`
  (`.error` = body unparseable).
* Exceptions that escape a modelled function are `Except PyExn`.
-/

/-- JSON / Python value model (dicts as association lists). -/
inductive Json where
  | null
  | bool (b : Bool)
  | num (n : Int)
  | str (s : String)
  | arr (xs : List Json)
  | obj (fs : List (String × Json))

/-- First binding of a key in an association list (Python dict lookup). -/
def Json.lookupKey : List (String × Json) → String → Option Json
  | [], _ => none
  | (k, v) :: fs, key => if k = key then some v else Json.lookupKey fs key

/-- `d[k]` / `d.get(k)` on a dict value; `none` when the value is not a
dict or the key is absent. -/
def Json.getField : Json → String → Option Json
  | .obj fs, k => Json.lookupKey fs k
  | _, _ => none

/-- `d.get(k, default)`; call sites in the model use this only where the
source has checked (or the source itself assumes) that `d` is a dict. -/
def Json.get (j : Json) (k : String) (d : Json) : Json :=
  match j with
  | .obj fs => (Json.lookupKey fs k).getD d
  | _ => d

/-- Python truthiness of a JSON value. -/
def Json.truthy : Json → Bool
  | .null => false
  | .bool b => b
  | .num n => n != 0
  | .str s => s != ""
  | .arr xs => !xs.isEmpty
  | .obj fs => !fs.isEmpty

mutual

/-- Python `repr` of a JSON value (string escaping inside reprs is not
modelled; no claim depends on container rendering). -/
def Json.pyRepr : Json → String
  | .null => "None"
  | .bool true => "True"
  | .bool false => "False"
  | .num n => toString n
  | .str s => "\x27" ++ s ++ "\x27"
  | .arr xs => "[" ++ Json.pyReprItems xs ++ "]"
  | .obj fs => "\x7b" ++ Json.pyReprFields fs ++ "\x7d"

/-- Comma-separated reprs of array items. -/
def Json.pyReprItems : List Json → String
  | [] => ""
  | [x] => Json.pyRepr x
  | x :: y :: xs => Json.pyRepr x ++ ", " ++ Json.pyReprItems (y :: xs)

/-- Comma-separated reprs of dict entries. -/
def Json.pyReprFields : List (String × Json) → String
  | [] => ""
  | [(k, v)] => "\x27" ++ k ++ "\x27: " ++ Json.pyRepr v
  | (k, v) :: f :: fs =>
    "\x27" ++ k ++ "\x27: " ++ Json.pyRepr v ++ ", " ++ Json.pyReprFields (f :: fs)

end

/-- Python `str()` of a JSON value (used for f-string interpolation and
the `str(data)` branch of the scrape fetcher). -/
def Json.pyStr : Json → String
  | .str s => s
  | j => Json.pyRepr j

/-- Python `a or b` specialised to JSON values. -/
def pyOr (a b : Json) : Json :=
  if a.truthy then a else b

/-- Exceptions that can escape a modelled operation. -/
inductive PyExn where
  | valueError
  | attributeError
  | typeError
  deriving DecidableEq

/-- Outcome of one `requests.post` attempt: the request itself raised
(`RequestException`: connection error / timeout), or a response came
back with a status code and a body that either parses as JSON or does
not (`.error ()`, raising `JSONDecodeError` from `response.json()`). -/
inductive HttpResult where
  | netError
  | resp (status : Nat) (body : Except Unit Json)

/-- Observable side effects of a pipeline cycle. -/
inductive Event where
  | emailApiCall
  | fileWrite
  deriving DecidableEq

/-- Outcome of the one email POST, when it is made: delivered, non-2xx
status (`raise_for_status` raises `HTTPError`), or a network error. -/
inductive DeliveryOutcome where
  | delivered
  | httpError (code : Nat)
  | netError
  deriving DecidableEq

/-- The three states of the persisted state file `jobs_db.json` as seen
by `load_seen_jobs`: absent, present but unreadable (invalid JSON or an
I/O error while opening/reading: `json.load`/`open` raised), or parsed
to a JSON value. -/
inductive StateFile where
  | absent
  | unreadable
  | parsed (j : Json)

/-- Encoding of a hashable scalar from the `seen_job_ids` array as a
set element; `none` models an unhashable element (list/dict), on which
Python's `set(...)` raises `TypeError`.  Non-string scalars are encoded
with a tag prefix: `get_job_id` only ever produces decimal-digit
strings, so the encodings cannot collide with live identifiers. -/
def seenIdOfJson : Json → Option String
  | .str s => some s
  | .num n => some ("<int " ++ toString n ++ ">")
  | .bool b => some ("<bool " ++ toString b ++ ">")
  | .null => some "<none>"
  | .arr _ => none
  | .obj _ => none

/-- `JobAlert.load_seen_jobs` (src/job_alert.py lines 45-53): the whole
body is wrapped in `try/except Exception`, and `self.seen_job_ids` was
initialised to the empty set, so every failure (missing file, invalid
JSON, wrong shape) leaves the empty set; logging is not modelled.
`set(x)` on a string yields its characters, on a dict its keys. -/
def load_seen_jobs : StateFile → Finset String
  | .absent => ∅
  | .unreadable => ∅
  | .parsed j =>
    match j with
    | .obj fs =>
      match (Json.lookupKey fs "seen_job_ids").getD (.arr []) with
      | .arr xs =>
        match xs.mapM seenIdOfJson with
        | some ids => ids.toFinset
        | none => ∅
      | .str s => (s.toList.map (fun c => String.mk [c])).toFinset
      | .obj gs => (gs.map Prod.fst).toFinset
      | _ => ∅
    | _ => ∅

/-- The fallback branch of `get_job_id`: the identifier derived from the
f-string `f"{job.get('title','')}_{job.get('company','')}"`. -/
def jobFallbackId (pyhash : Json → Int) (job : Json) : String :=
  toString
    (pyhash (.str (Json.pyStr ((Json.getField job "title").getD (.str "")) ++ "_" ++
       Json.pyStr ((Json.getField job "company").getD (.str "")))) % (10 : Int) ^ 10)

/-- `JobAlert.get_job_id` (src/job_alert.py lines 326-331):
`str(hash(job['link']) % 10**10)` when `'link' in job and job['link']`,
else the title+company fallback.  `%` on a positive modulus is Python
floor-mod = Lean `Int.emod`.  The model is total in `pyhash` (in Python,
hashing an unhashable `link` value would raise `TypeError`; no claim
exercises that corner). -/
def get_job_id (pyhash : Json → Int) (job : Json) : String :=
  match Json.getField job "link" with
  | some v => if v.truthy then toString (pyhash v % (10 : Int) ^ 10) else jobFallbackId pyhash job
  | none => jobFallbackId pyhash job

/-- The deduplication loop of `JobAlert.check_for_new_jobs`
(src/job_alert.py lines 434-439), the spec's `filter_new`: walk the
batch in order; a record whose identifier is not in the seen set is
appended to the new list and its identifier added to the set at once. -/
def filter_new (jobId : Json → String) : List Json → Finset String → List Json × Finset String
  | [], seen => ([], seen)
  | j :: rest, seen =>
    if jobId j ∈ seen then filter_new jobId rest seen
    else
      let p := filter_new jobId rest (insert (jobId j) seen)
      (j :: p.1, p.2)

/-- `p` is a prefix of the character list `c`. -/
def charsPrefix : List Char → List Char → Bool
  | [], _ => true
  | _ :: _, [] => false
  | p :: ps, c :: cs => p == c && charsPrefix ps cs

/-- Python `s.startswith(p)` (structurally computable model of
`String.startsWith`). -/
def pyStartsWith (s p : String) : Bool :=
  charsPrefix p.toList s.toList

/-- `s` carries no leading or trailing whitespace, i.e. `s` is a fixed
point of Python's `strip()`; `get_text(strip=True)` only returns such
strings. -/
def pyStripped (s : String) : Bool :=
  (match s.toList.head? with
   | none => true
   | some c => !c.isWhitespace) &&
  (match s.toList.getLast? with
   | none => true
   | some c => !c.isWhitespace)

/-- One anchor from `offers_list.find_all('a', href=...)`, with the
BeautifulSoup queries the loop body performs on it precomputed:
`text` is `link.get_text(strip=True)`, `href` is `link.get('href', '')`,
`companyText`/`locationText` are the stripped texts of the first
company- or location-classed element under `link.find_parent()` (`none`
when there is no parent or no such element).  The HTML-to-DOM step
itself (BeautifulSoup) is the external collaborator. -/
structure Anchor where
  text : String
  href : String
  companyText : Option String
  locationText : Option String

/-- The record dict built for one accepted anchor
(src/job_alert.py lines 206-211). -/
def jobOfAnchor (title href company location : String) : Json :=
  .obj [("title", .str title), ("company", .str company),
        ("location", .str location), ("link", .str href)]

/-- The anchor loop of `JobAlert.parse_jobs_from_html`
(src/job_alert.py lines 175-214): skip empty/short/duplicate titles;
resolve a leading-`/` href against the fixed origin, keep an `http...`
href as is, otherwise skip the anchor (note: a skipped href does not add
the title to `seen_titles`); company and location default to "Unknown"
and "Location not specified". -/
def parseLoop : List Anchor → Finset String → List Json
  | [], _ => []
  | a :: rest, seenTitles =>
    if a.text = "" ∨ a.text.length < 5 ∨ a.text ∈ seenTitles then parseLoop rest seenTitles
    else if pyStartsWith a.href "/" then
      jobOfAnchor a.text ("https://it.pracuj.pl" ++ a.href)
          (a.companyText.getD "Unknown") (a.locationText.getD "Location not specified")
        :: parseLoop rest (insert a.text seenTitles)
    else if pyStartsWith a.href "http" then
      jobOfAnchor a.text a.href
          (a.companyText.getD "Unknown") (a.locationText.getD "Location not specified")
        :: parseLoop rest (insert a.text seenTitles)
    else parseLoop rest seenTitles

/-- `JobAlert.parse_jobs_from_html` on a parsed document: `none` models
a missing `offers-list` container (then `offers_list.find_all` raises
`AttributeError`, the broad `except Exception` catches it, and the
accumulated `jobs = []` is returned); `some anchors` gives the matched
anchors in document order. -/
def parse_jobs_from_html (doc : Option (List Anchor)) : List Json :=
  match doc with
  | none => []
  | some anchors => parseLoop anchors ∅

/-- The extraction schema constant of
`JobAlert.scrape_jobs_with_firecrawl_extract` (src/job_alert.py
lines 238-255). -/
def extractSchema : Json :=
  .obj [("type", .str "object"),
        ("properties", .obj [
          ("jobs", .obj [
            ("type", .str "array"),
            ("items", .obj [
              ("type", .str "object"),
              ("properties", .obj [
                ("title", .obj [("type", .str "string")]),
                ("company", .obj [("type", .str "string")]),
                ("location", .obj [("type", .str "string")]),
                ("link", .obj [("type", .str "string")]),
                ("description", .obj [("type", .str "string")])])])])])]

/-- Extract-mode endpoints, v2 first (src/job_alert.py lines 227-230). -/
def extractEndpoints : List String :=
  ["https://api.firecrawl.dev/v2/extract", "https://api.firecrawl.dev/v1/extract"]

/-- Extract-mode payloads: single-URL key first, then URL-array key
(src/job_alert.py lines 258-273). -/
def extractPayloads (siteUrl : String) : List Json :=
  [.obj [("url", .str siteUrl),
         ("extractorOptions", .obj [("mode", .str "llm-extract"), ("schema", extractSchema)])],
   .obj [("urls", .arr [.str siteUrl]),
         ("extractorOptions", .obj [("mode", .str "llm-extract"), ("schema", extractSchema)])]]

/-- Scrape-mode endpoints, v2 first (src/job_alert.py lines 72-75). -/
def scrapeEndpoints : List String :=
  ["https://api.firecrawl.dev/v2/scrape", "https://api.firecrawl.dev/v1/scrape"]

/-- Scrape-mode payloads in source order (src/job_alert.py
lines 83-99). -/
def scrapePayloads (siteUrl : String) : List Json :=
  [.obj [("url", .str siteUrl),
         ("formats", .arr [.str "html", .str "markdown"]),
         ("selectors", .arr [.str "#offers-list"])],
   .obj [("url", .str siteUrl),
         ("formats", .arr [.str "html", .str "markdown"])],
   .obj [("url", .str siteUrl),
         ("pageOptions", .obj [("onlyMainContent", .bool false)])]]

/-- The fallback matrix of a mode: endpoint list outer, payload list
inner (the nesting of the two `for` loops). -/
def comboList (endpoints : List String) (payloads : List Json) : List (String × Json) :=
  endpoints.flatMap (fun e => payloads.map (fun p => (e, p)))

/-- `extractCombos u = comboList extractEndpoints (extractPayloads u)`. -/
def extractCombos (siteUrl : String) : List (String × Json) :=
  comboList extractEndpoints (extractPayloads siteUrl)

/-- `scrapeCombos u = comboList scrapeEndpoints (scrapePayloads u)`. -/
def scrapeCombos (siteUrl : String) : List (String × Json) :=
  comboList scrapeEndpoints (scrapePayloads siteUrl)

/-- The id-synthesis pass of extract mode (src/job_alert.py
lines 310-314): a job dict without an `id` key gets
`hash(f"{title}_{company}_{link}") % 10**10` appended.  A non-dict
element of the `jobs` array is modelled as `TypeError` (Python's exact
behaviour on such elements — substring checks on strings, key iteration
on dicts — is not modelled; no claim depends on it). -/
def synthId (pyhash : Json → Int) : Json → Except PyExn Json
  | .obj fs =>
    match Json.lookupKey fs "id" with
    | some _ => .ok (.obj fs)
    | none =>
      let key := Json.pyStr ((Json.lookupKey fs "title").getD (.str "")) ++ "_" ++
                 Json.pyStr ((Json.lookupKey fs "company").getD (.str "")) ++ "_" ++
                 Json.pyStr ((Json.lookupKey fs "link").getD (.str ""))
      .ok (.obj (fs ++ [("id", .num (pyhash (.str key) % (10 : Int) ^ 10))]))
  | _ => .error .typeError

/-- Processing of one extract-mode attempt (the `try` body of
src/job_alert.py lines 277-322): `.ok none` = move to the next
combination, `.ok (some js)` = return `js`, `.error` = an exception the
`except RequestException` handler does not catch (`AttributeError` from
`.get` on a non-dict, `TypeError` from iterating a non-list `jobs`). -/
def extractAttempt (pyhash : Json → Int) : HttpResult → Except PyExn (Option (List Json))
  | .netError => .ok none
  | .resp status body =>
    if status ≠ 200 then .ok none
    else
      match body with
      | .error _ => .ok none
      | .ok data =>
        match data with
        | .obj _ =>
          if (Json.get data "success" (.bool true)).truthy = false then .ok none
          else
            let ed0 := Json.get data "data" data
            let ed := match ed0 with
              | .arr xs => xs.headD (.obj [])
              | _ => ed0
            match ed with
            | .obj _ =>
              match Json.get ed "jobs" (.arr []) with
              | .arr xs =>
                match xs.mapM (synthId pyhash) with
                | .error e => .error e
                | .ok js => if xs.isEmpty then .ok none else .ok (some js)
              | other => if other.truthy then .error .typeError else .ok none
            | _ => .error .attributeError
        | _ => .ok none

/-- Processing of one scrape-mode attempt (the `try` body of
src/job_alert.py lines 104-146).  `parseFn` is
`parse_jobs_from_html` on raw content; it is total because that method
catches all exceptions internally (a non-string `html_content` makes
BeautifulSoup raise inside it, yielding `[]`). -/
def scrapeAttempt (parseFn : String → List Json) : HttpResult → Except PyExn (Option (List Json))
  | .netError => .ok none
  | .resp status body =>
    if status ≠ 200 then .ok none
    else
      match body with
      | .error _ => .ok none
      | .ok data =>
        match data with
        | .obj _ =>
          if (Json.get data "success" (.bool true)).truthy = false then .ok none
          else
            let cd := Json.get data "data" data
            match cd with
            | .obj _ =>
              let hc := pyOr (Json.get cd "html" (.str ""))
                        (pyOr (Json.get cd "markdown" (.str "")) (Json.get cd "content" (.str "")))
              if hc.truthy then
                let js := match hc with
                  | .str s => parseFn s
                  | _ => []
                if js.isEmpty then .ok none else .ok (some js)
              else .ok none
            | _ => .error .attributeError
        | _ =>
          let s := Json.pyStr data
          if s = "" then .ok none
          else
            let js := parseFn s
            if js.isEmpty then .ok none else .ok (some js)

/-- The ordered trial over a combination list: stop at the first attempt
that yields data or raises; otherwise fall through.  The second
component is the list of combinations actually attempted (POSTed). -/
def runAttempts (attempt : String × Json → Except PyExn (Option (List Json))) :
    List (String × Json) → Except PyExn (Option (List Json)) × List (String × Json)
  | [] => (.ok none, [])
  | c :: rest =>
    match attempt c with
    | .error e => (.error e, [c])
    | .ok (some r) => (.ok (some r), [c])
    | .ok none =>
      let p := runAttempts attempt rest
      (p.1, c :: p.2)

/-- Wrap a trial result as the fetcher's return value: falling through
every combination returns `[]` (src/job_alert.py lines 148 and 324). -/
def fetchWrap (p : Except PyExn (Option (List Json)) × List (String × Json)) :
    Except PyExn (List Json) × List (String × Json) :=
  match p with
  | (.ok none, t) => (.ok [], t)
  | (.ok (some js), t) => (.ok js, t)
  | (.error e, t) => (.error e, t)

/-- `JobAlert.scrape_jobs_with_firecrawl_extract` (src/job_alert.py
lines 221-324): raise `ValueError` when the Firecrawl key is unset or
empty, otherwise try the extract combination matrix in order.  Returns
the result together with the trace of attempted combinations. -/
def scrape_jobs_with_firecrawl_extract (pyhash : Json → Int) (apiKey : Option String)
    (siteUrl : String) (outcome : String × Json → HttpResult) :
    Except PyExn (List Json) × List (String × Json) :=
  if apiKey.getD "" = "" then (.error .valueError, [])
  else fetchWrap (runAttempts (fun c => extractAttempt pyhash (outcome c)) (extractCombos siteUrl))

/-- `JobAlert.scrape_jobs_with_firecrawl` (src/job_alert.py
lines 66-148): same trial structure over the scrape matrix, handing
content to the parser. -/
def scrape_jobs_with_firecrawl (parseFn : String → List Json) (apiKey : Option String)
    (siteUrl : String) (outcome : String × Json → HttpResult) :
    Except PyExn (List Json) × List (String × Json) :=
  if apiKey.getD "" = "" then (.error .valueError, [])
  else fetchWrap (runAttempts (fun c => scrapeAttempt parseFn (outcome c)) (scrapeCombos siteUrl))

/-- An attempt outcome of one of the three kinds the spec calls a
failure: a network error, a non-200 response, or a 200 response whose
body is not valid JSON. -/
def attemptFails : HttpResult → Bool
  | .netError => true
  | .resp s body =>
    if s ≠ 200 then true
    else
      match body with
      | .error _ => true
      | .ok _ => false

/-- Number of email-API POSTs made by a notifier call. -/
def emailCalls : Except PyExn (List Event) → Nat
  | .error _ => 0
  | .ok evs => evs.count .emailApiCall

/-- `JobAlert.send_email` (src/job_alert.py lines 333-417), effects
only (the subject/HTML/text rendering has no observable consequence for
the claims and is elided): raise `ValueError` when the Resend key is
unset or empty — this check precedes the empty-list check — then return
at once on an empty list, otherwise POST once; `raise_for_status` and
network errors are caught by the `except RequestException` handler, so
every delivery outcome yields the same single API call and a normal
return. -/
def send_email (resendKey : Option String) (delivery : DeliveryOutcome) (jobs : List Json) :
    Except PyExn (List Event) :=
  if resendKey.getD "" = "" then .error .valueError
  else if jobs.isEmpty then .ok []
  else
    match delivery with
    | .delivered => .ok [.emailApiCall]
    | .httpError _ => .ok [.emailApiCall]
    | .netError => .ok [.emailApiCall]

/-- The post-fetch part of `JobAlert.check_for_new_jobs`
(src/job_alert.py lines 429-446), parameterised by the fetched batch
(the fetch stages are modelled separately above): early return when the
batch is empty; deduplicate; when new jobs exist, send the email and
then call `save_seen_jobs` (which swallows its own I/O errors, so the
`.fileWrite` event records the attempted write).  An exception escaping
`send_email` is caught by the surrounding `except Exception` of
`check_for_new_jobs`, so the save is skipped but the in-memory seen set
keeps the identifiers already added by the loop.  Result: the updated
in-memory seen set, the event trace in order, and the exception the
outer handler caught, if any. -/
def check_cycle (pyhash : Json → Int) (resendKey : Option String) (delivery : DeliveryOutcome)
    (fetched : List Json) (seen : Finset String) :
    Finset String × List Event × Option PyExn :=
  if fetched.isEmpty then (seen, [], none)
  else
    let p := filter_new (get_job_id pyhash) fetched seen
    if p.1.isEmpty then (p.2, [], none)
    else
      match send_email resendKey delivery p.1 with
      | .error e => (p.2, [], some e)
      | .ok evs => (p.2, evs ++ [.fileWrite], none)

/-- A concrete process-hash oracle for scenario theorems. -/
def demoHash : Json → Int
  | .str "L1" => 111
  | .str "L2" => 222
  | _ => 0

/-- A concrete job record whose link hashes to 111 under `demoHash`. -/
def rec1 : Json := .obj [("title", .str "React Developer"), ("link", .str "L1")]

/-- A concrete job record whose link hashes to 222 under `demoHash`. -/
def rec2 : Json := .obj [("title", .str "Frontend Engineer"), ("link", .str "L2")]

theorem filter_new_nil (f : Json → String) (s : Finset String) :
    filter_new f [] s = ([], s) := rfl

theorem filter_new_cons (f : Json → String) (j : Json) (rest : List Json) (s : Finset String) :
    filter_new f (j :: rest) s =
      if f j ∈ s then filter_new f rest s
      else (j :: (filter_new f rest (insert (f j) s)).1, (filter_new f rest (insert (f j) s)).2) :=
  rfl

theorem mem_filter_new_snd (f : Json → String) :
    ∀ (xs : List Json) (s : Finset String) (x : String),
      x ∈ (filter_new f xs s).2 ↔ x ∈ s ∨ x ∈ xs.map f := by
  intro xs
  induction xs with
  | nil => intro s x; simp [filter_new]
  | cons j rest ih =>
    intro s x
    by_cases hj : f j ∈ s
    · rw [filter_new_cons, if_pos hj, ih]
      simp only [List.map_cons, List.mem_cons]
      constructor
      · rintro (h | h)
        · exact Or.inl h
        · exact Or.inr (Or.inr h)
      · rintro (h | h | h)
        · exact Or.inl h
        · exact Or.inl (h ▸ hj)
        · exact Or.inr h
    · rw [filter_new_cons, if_neg hj]
      simp only []
      rw [ih]
      simp only [Finset.mem_insert, List.map_cons, List.mem_cons]
      tauto

theorem filter_new_snd (f : Json → String) (xs : List Json) (s : Finset String) :
    (filter_new f xs s).2 = s ∪ (xs.map f).toFinset := by
  ext x
  rw [mem_filter_new_snd]
  simp

theorem filter_new_append_fst (f : Json → String) :
    ∀ (xs ys : List Json) (s : Finset String),
      (filter_new f (xs ++ ys) s).1 =
        (filter_new f xs s).1 ++ (filter_new f ys ((filter_new f xs s).2)).1 := by
  intro xs
  induction xs with
  | nil => intro ys s; simp [filter_new]
  | cons j rest ih =>
    intro ys s
    by_cases hj : f j ∈ s
    · simp only [List.cons_append, filter_new_cons, if_pos hj]
      exact ih ys s
    · simp only [List.cons_append, filter_new_cons, if_neg hj]
      rw [ih]

theorem filter_new_fst_ids_fresh (f : Json → String) :
    ∀ (xs : List Json) (s : Finset String) (j : Json),
      j ∈ (filter_new f xs s).1 → f j ∉ s := by
  intro xs
  induction xs with
  | nil => intro s j h; simp [filter_new] at h
  | cons a rest ih =>
    intro s j h
    by_cases ha : f a ∈ s
    · rw [filter_new_cons, if_pos ha] at h
      exact ih s j h
    · rw [filter_new_cons, if_neg ha] at h
      rcases List.mem_cons.mp h with rfl | h2
      · exact ha
      · intro hs
        exact ih (insert (f a) s) j h2 (Finset.mem_insert_of_mem hs)

theorem filter_new_ids_nodup (f : Json → String) :
    ∀ (xs : List Json) (s : Finset String), ((filter_new f xs s).1.map f).Nodup := by
  intro xs
  induction xs with
  | nil => intro s; simp [filter_new]
  | cons a rest ih =>
    intro s
    by_cases ha : f a ∈ s
    · rw [filter_new_cons, if_pos ha]
      exact ih s
    · rw [filter_new_cons, if_neg ha]
      simp only [List.map_cons, List.nodup_cons]
      refine ⟨?_, ih _⟩
      intro hmem
      rcases List.mem_map.mp hmem with ⟨x, hx, hfx⟩
      refine filter_new_fst_ids_fresh f rest (insert (f a) s) x hx ?_
      rw [hfx]
      exact Finset.mem_insert_self (f a) s

/-- C1: Deduplication.  (i) Splitting any batch as `pre ++ j :: post`,
the record `j` is reported exactly when its identifier is absent from
the seen set at the moment it is processed — the initial set united with
the identifiers of all earlier records — and the records after it are
processed against the set with `j`'s identifier already added;
(ii) the final seen set is the initial set united with all identifiers
of the batch; (iii) the reported records have pairwise-distinct
identifiers, so two records of one batch sharing an identifier yield one
report; (iv) concretely, from seen set containing 111 and a batch whose
records hash to 111 and 222, exactly the 222 record is returned and the
updated set holds 111 and 222. -/
theorem dedup_new_iff_unseen :
    (∀ (f : Json → String) (s : Finset String) (pre : List Json) (j : Json) (post : List Json),
       (filter_new f (pre ++ j :: post) s).1 =
         (filter_new f pre s).1 ++
           (if f j ∈ s ∪ (pre.map f).toFinset
            then (filter_new f post (insert (f j) (s ∪ (pre.map f).toFinset))).1
            else j :: (filter_new f post (insert (f j) (s ∪ (pre.map f).toFinset))).1)) ∧
    (∀ (f : Json → String) (xs : List Json) (s : Finset String),
       (filter_new f xs s).2 = s ∪ (xs.map f).toFinset) ∧
    (∀ (f : Json → String) (xs : List Json) (s : Finset String),
       ((filter_new f xs s).1.map f).Nodup) ∧
    ((filter_new (get_job_id demoHash) [rec1, rec2] {"111"}).1 = [rec2] ∧
     (filter_new (get_job_id demoHash) [rec1, rec2] {"111"}).2 = {"111", "222"}) := by
  refine ⟨?_, filter_new_snd, filter_new_ids_nodup, ?_, ?_⟩
  · intro f s pre j post
    rw [filter_new_append_fst, filter_new_snd, filter_new_cons]
    by_cases hj : f j ∈ s ∪ (pre.map f).toFinset
    · rw [if_pos hj, if_pos hj, Finset.insert_eq_self.mpr hj]
    · rw [if_neg hj, if_neg hj]
  · rfl
  · decide

/-- C8: Identifier-store load robustness: an absent state file loads to
the empty seen set, and an unreadable/invalid-JSON state file also
loads to the empty seen set (the broad `except` swallows the error;
`load_seen_jobs` is total, so neither case raises); a well-formed file
loads its `seen_job_ids` array. -/
theorem load_seen_jobs_robust :
    load_seen_jobs .absent = ∅ ∧
    load_seen_jobs .unreadable = ∅ ∧
    load_seen_jobs (.parsed (.obj [("seen_job_ids", .arr [.str "111", .str "222"]),
      ("last_updated", .str "2024-01-01T00:00:00")])) = {"111", "222"} := by
  refine ⟨rfl, rfl, ?_⟩
  decide

theorem lookupKey_append_ne (fs : List (String × Json)) (v : Json) (k : String)
    (h : k ≠ "id") : Json.lookupKey (fs ++ [("id", v)]) k = Json.lookupKey fs k := by
  induction fs with
  | nil =>
    simp only [List.nil_append, Json.lookupKey]
    rw [if_neg (fun hk => h hk.symm)]
  | cons f fs ih =>
    obtain ⟨a, b⟩ := f
    by_cases hak : a = k
    · simp [Json.lookupKey, hak]
    · simp [Json.lookupKey, hak, ih]

/-- C10: `get_job_id` depends only on the `link`, `title` and `company`
fields of a record, so any `id` field — whether delivered by the API or
synthesized by extract mode (which appends it) — never influences
whether the record is treated as new; in particular, appending an `id`
binding with any value leaves the identifier unchanged. -/
theorem get_job_id_ignores_id_field :
    (∀ (pyhash : Json → Int) (j1 j2 : Json),
       Json.getField j1 "link" = Json.getField j2 "link" →
       Json.getField j1 "title" = Json.getField j2 "title" →
       Json.getField j1 "company" = Json.getField j2 "company" →
       get_job_id pyhash j1 = get_job_id pyhash j2) ∧
    (∀ (pyhash : Json → Int) (fs : List (String × Json)) (v w : Json),
       get_job_id pyhash (.obj (fs ++ [("id", v)])) =
         get_job_id pyhash (.obj (fs ++ [("id", w)]))) := by
  have hmain : ∀ (pyhash : Json → Int) (j1 j2 : Json),
      Json.getField j1 "link" = Json.getField j2 "link" →
      Json.getField j1 "title" = Json.getField j2 "title" →
      Json.getField j1 "company" = Json.getField j2 "company" →
      get_job_id pyhash j1 = get_job_id pyhash j2 := by
    intro pyhash j1 j2 h1 h2 h3
    unfold get_job_id jobFallbackId
    rw [h1, h2, h3]
  refine ⟨hmain, ?_⟩
  intro pyhash fs v w
  apply hmain
  · show Json.lookupKey (fs ++ [("id", v)]) "link" = Json.lookupKey (fs ++ [("id", w)]) "link"
    rw [lookupKey_append_ne _ _ _ (by decide), lookupKey_append_ne _ _ _ (by decide)]
  · show Json.lookupKey (fs ++ [("id", v)]) "title" = Json.lookupKey (fs ++ [("id", w)]) "title"
    rw [lookupKey_append_ne _ _ _ (by decide), lookupKey_append_ne _ _ _ (by decide)]
  · show Json.lookupKey (fs ++ [("id", v)]) "company" =
      Json.lookupKey (fs ++ [("id", w)]) "company"
    rw [lookupKey_append_ne _ _ _ (by decide), lookupKey_append_ne _ _ _ (by decide)]

theorem get_job_id_ignores_id_field_witness :
    get_job_id demoHash (.obj [("link", .str "L1"), ("id", .num 1)]) =
      get_job_id demoHash (.obj [("link", .str "L1"), ("id", .num 2)]) :=
  get_job_id_ignores_id_field.1 demoHash _ _ rfl rfl rfl

/-- C6 (code bug): the identifier of a fixed record with a non-empty
link is a function of the per-process hash oracle: two distinct oracles
(as produced by two runs of CPython, which salts string hashes per
process via PYTHONHASHSEED) give different identifiers for the very same
record, so the identifier is not stable across runs.  Determinism within
one run holds, as `get_job_id` is a pure function of (oracle, record),
but the persisted seen set makes run-stability the requirement. -/
theorem get_job_id_depends_on_process_hash :
    Json.truthy ((Json.getField rec1 "link").getD .null) = true ∧
    get_job_id (fun _ => 0) rec1 ≠ get_job_id (fun _ => 1) rec1 := by
  exact ⟨rfl, by decide⟩

theorem parseLoop_cons (a : Anchor) (rest : List Anchor) (s : Finset String) :
    parseLoop (a :: rest) s =
      if a.text = "" ∨ a.text.length < 5 ∨ a.text ∈ s then parseLoop rest s
      else if pyStartsWith a.href "/" then
        jobOfAnchor a.text ("https://it.pracuj.pl" ++ a.href) (a.companyText.getD "Unknown")
          (a.locationText.getD "Location not specified") :: parseLoop rest (insert a.text s)
      else if pyStartsWith a.href "http" then
        jobOfAnchor a.text a.href (a.companyText.getD "Unknown")
          (a.locationText.getD "Location not specified") :: parseLoop rest (insert a.text s)
      else parseLoop rest s := rfl

theorem parseLoop_invariant :
    ∀ (anchors : List Anchor) (s : Finset String),
      (∀ j ∈ parseLoop anchors s, ∃ a, a ∈ anchors ∧ a.text ≠ "" ∧ 5 ≤ a.text.length ∧
         a.text ∉ s ∧ Json.getField j "title" = some (.str a.text)) ∧
      ((parseLoop anchors s).map (fun j => Json.getField j "title")).Nodup := by
  intro anchors
  induction anchors with
  | nil => intro s; simp [parseLoop]
  | cons a rest ih =>
    intro s
    by_cases hskip : a.text = "" ∨ a.text.length < 5 ∨ a.text ∈ s
    · rw [parseLoop_cons, if_pos hskip]
      refine ⟨?_, (ih s).2⟩
      intro j hj
      rcases (ih s).1 j hj with ⟨b, hb, h1, h2, h3, h4⟩
      exact ⟨b, List.mem_cons_of_mem a hb, h1, h2, h3, h4⟩
    · push_neg at hskip
      obtain ⟨hne, hlen5, hnotin⟩ := hskip
      have hkeep : ¬(a.text = "" ∨ a.text.length < 5 ∨ a.text ∈ s) := by
        push_neg
        exact ⟨hne, hlen5, hnotin⟩
      have hprod : ∀ (link : String),
          (∀ j ∈ jobOfAnchor a.text link (a.companyText.getD "Unknown")
                (a.locationText.getD "Location not specified")
                :: parseLoop rest (insert a.text s),
             ∃ b, b ∈ a :: rest ∧ b.text ≠ "" ∧ 5 ≤ b.text.length ∧
               b.text ∉ s ∧ Json.getField j "title" = some (.str b.text)) ∧
          (((jobOfAnchor a.text link (a.companyText.getD "Unknown")
                (a.locationText.getD "Location not specified")
                :: parseLoop rest (insert a.text s))).map
            (fun j => Json.getField j "title")).Nodup := by
        intro link
        constructor
        · intro j hj
          rcases List.mem_cons.mp hj with rfl | hj2
          · exact ⟨a, List.mem_cons_self a rest, hne, hlen5, hnotin, rfl⟩
          · rcases (ih (insert a.text s)).1 j hj2 with ⟨b, hb, h1, h2, h3, h4⟩
            exact ⟨b, List.mem_cons_of_mem a hb, h1, h2,
              fun hbs => h3 (Finset.mem_insert_of_mem hbs), h4⟩
        · simp only [List.map_cons, List.nodup_cons]
          refine ⟨?_, (ih (insert a.text s)).2⟩
          intro hmem
          rcases List.mem_map.mp hmem with ⟨x, hx, hfx⟩
          rcases (ih (insert a.text s)).1 x hx with ⟨b, _, _, _, h3, h4⟩
          rw [h4] at hfx
          have hbt : b.text = a.text := by
            have := Option.some.inj hfx
            exact Json.str.inj this
          exact h3 (hbt ▸ Finset.mem_insert_self a.text s)
      by_cases hslash : pyStartsWith a.href "/" = true
      · rw [parseLoop_cons, if_neg hkeep, if_pos hslash]
        exact hprod ("https://it.pracuj.pl" ++ a.href)
      · by_cases hhttp : pyStartsWith a.href "http" = true
        · rw [parseLoop_cons, if_neg hkeep, if_neg hslash, if_pos hhttp]
          exact hprod a.href
        · rw [parseLoop_cons, if_neg hkeep, if_neg hslash, if_neg hhttp]
          refine ⟨?_, (ih s).2⟩
          intro j hj
          rcases (ih s).1 j hj with ⟨b, hb, h1, h2, h3, h4⟩
          exact ⟨b, List.mem_cons_of_mem a hb, h1, h2, h3, h4⟩

/-- C3 (amended): every record produced by the HTML parser has a title
that is non-empty and at least 5 characters long; since anchor texts
come from `get_text(strip=True)` and so carry no surrounding whitespace
(the hypothesis), the title is its own trim, hence at least 5 characters
remain after trimming; no two records of one parse call share a title.
The structured-extract mode performs no title validation (see the
separate counterexample theorem). -/
theorem parser_title_invariant :
    ∀ (anchors : List Anchor),
      (∀ a ∈ anchors, pyStripped a.text = true) →
      (∀ j ∈ parse_jobs_from_html (some anchors), ∃ t : String,
         Json.getField j "title" = some (.str t) ∧ t ≠ "" ∧ 5 ≤ t.length ∧ pyStripped t = true) ∧
      ((parse_jobs_from_html (some anchors)).map (fun j => Json.getField j "title")).Nodup := by
  intro anchors ht
  have h := parseLoop_invariant anchors ∅
  refine ⟨?_, h.2⟩
  intro j hj
  rcases h.1 j hj with ⟨a, ha, h1, h2, _, h4⟩
  exact ⟨a.text, h4, h1, h2, ht a ha⟩

theorem parser_title_invariant_witness :
    ((parse_jobs_from_html (some [⟨"Senior React Developer", "/praca/123", none, none⟩])).map
       (fun j => Json.getField j "title")).Nodup := by
  refine (parser_title_invariant [⟨"Senior React Developer", "/praca/123", none, none⟩] ?_).2
  intro a ha
  rw [List.mem_singleton] at ha
  subst ha
  decide

/-- C9: Parser link resolution: an accepted anchor whose href starts
with "/" yields a record whose link is the fixed origin prefixed to the
href; an anchor whose href starts with neither "/" nor "http" yields no
record (and its title is not marked seen); concretely, "/praca/123"
resolves to "https://it.pracuj.pl/praca/123". -/
theorem parser_link_resolution :
    (∀ (a : Anchor) (rest : List Anchor) (s : Finset String),
       ¬(a.text = "" ∨ a.text.length < 5 ∨ a.text ∈ s) →
       pyStartsWith a.href "/" = true →
       parseLoop (a :: rest) s =
         jobOfAnchor a.text ("https://it.pracuj.pl" ++ a.href) (a.companyText.getD "Unknown")
           (a.locationText.getD "Location not specified") :: parseLoop rest (insert a.text s)) ∧
    (∀ (a : Anchor) (rest : List Anchor) (s : Finset String),
       ¬(a.text = "" ∨ a.text.length < 5 ∨ a.text ∈ s) →
       pyStartsWith a.href "/" = false →
       pyStartsWith a.href "http" = false →
       parseLoop (a :: rest) s = parseLoop rest s) ∧
    parse_jobs_from_html (some [⟨"Senior React Developer", "/praca/123", none, none⟩]) =
      [jobOfAnchor "Senior React Developer" "https://it.pracuj.pl/praca/123" "Unknown"
        "Location not specified"] := by
  refine ⟨?_, ?_, ?_⟩
  · intro a rest s h hs
    rw [parseLoop_cons, if_neg h, if_pos hs]
  · intro a rest s h h1 h2
    rw [parseLoop_cons, if_neg h, if_neg (by simp [h1]), if_neg (by simp [h2])]
  · rfl

theorem parser_link_resolution_witness :
    parseLoop [⟨"Frontend Developer", "/praca/9", none, none⟩] ∅ =
      jobOfAnchor "Frontend Developer" ("https://it.pracuj.pl" ++ "/praca/9") "Unknown"
        "Location not specified" :: parseLoop [] (insert "Frontend Developer" ∅) :=
  parser_link_resolution.1 ⟨"Frontend Developer", "/praca/9", none, none⟩ [] ∅
    (by decide) rfl

theorem runAttempts_first_success
    (attempt : String × Json → Except PyExn (Option (List Json))) :
    ∀ (pre : List (String × Json)) (c : String × Json) (rest : List (String × Json))
      (r : List Json),
      (∀ x ∈ pre, attempt x = .ok none) →
      attempt c = .ok (some r) →
      runAttempts attempt (pre ++ c :: rest) = (.ok (some r), pre ++ [c]) := by
  intro pre
  induction pre with
  | nil =>
    intro c rest r _ hc
    simp [runAttempts, hc]
  | cons x pre ih =>
    intro c rest r hpre hc
    have hx : attempt x = .ok none := hpre x (List.mem_cons_self x pre)
    simp only [List.cons_append, runAttempts, hx]
    simp only [List.append_eq]
    rw [ih c rest r (fun y hy => hpre y (List.mem_cons_of_mem x hy)) hc]

theorem runAttempts_all_fail
    (attempt : String × Json → Except PyExn (Option (List Json))) :
    ∀ (combos : List (String × Json)),
      (∀ c ∈ combos, attempt c = .ok none) →
      runAttempts attempt combos = (.ok none, combos) := by
  intro combos
  induction combos with
  | nil => intro _; rfl
  | cons c rest ih =>
    intro h
    have hc := h c (List.mem_cons_self c rest)
    simp only [runAttempts, hc]
    rw [ih (fun y hy => h y (List.mem_cons_of_mem c hy))]

theorem extractAttempt_fail (pyhash : Json → Int) (r : HttpResult)
    (h : attemptFails r = true) : extractAttempt pyhash r = .ok none := by
  cases r with
  | netError => rfl
  | resp s body =>
    by_cases hs : s = 200
    · subst hs
      cases body with
      | error e => simp [extractAttempt]
      | ok data => simp [attemptFails] at h
    · simp [extractAttempt, hs]

theorem scrapeAttempt_fail (parseFn : String → List Json) (r : HttpResult)
    (h : attemptFails r = true) : scrapeAttempt parseFn r = .ok none := by
  cases r with
  | netError => rfl
  | resp s body =>
    by_cases hs : s = 200
    · subst hs
      cases body with
      | error e => simp [scrapeAttempt]
      | ok data => simp [attemptFails] at h
    · simp [scrapeAttempt, hs]

/-- The target URL used in concrete scenarios (the monitored board). -/
def demoUrl : String := "https://it.pracuj.pl/praca/react;kw"

/-- The record returned by the successful secondary-endpoint attempt of
the C2 scenario (it already carries an `id`, so the synthesis pass
leaves it unchanged). -/
def demoExtractJob : Json :=
  .obj [("title", .str "React Developer"), ("link", .str "L1"), ("id", .num 5)]

/-- A 200 response with a valid non-empty `jobs` array. -/
def demoJobsResp : HttpResult :=
  .resp 200 (.ok (.obj [("success", .bool true),
    ("data", .obj [("jobs", .arr [demoExtractJob])])]))

/-- Outcome oracle of the C2 scenario: the primary (v2) extract endpoint
answers HTTP 500, the secondary (v1) answers 200 with a valid `jobs`
array. -/
def demoOutcome : String × Json → HttpResult :=
  fun c =>
    if c.1 = "https://api.firecrawl.dev/v2/extract" then .resp 500 (.ok .null)
    else demoJobsResp

/-- C2: Fetcher fallback order.  (i) For any combination list split as
`pre ++ c :: rest` where every attempt before `c` falls through and `c`
produces usable data `r`, the trial returns `r` and attempts exactly
`pre ++ [c]` — nothing after the first success; the fetcher wrapper then
returns those records.  (ii)/(iii) In both modes the combination list
enumerates the endpoint list in the outer position and the payload list
in the inner position.  (iv) Concretely, with the primary extract
endpoint answering HTTP 500 and the secondary answering 200 with a valid
`jobs` array, the extract fetcher returns the secondary's records after
exactly 3 attempts (primary twice — once per payload — then the
secondary's first payload). -/
theorem fetcher_fallback_first_success :
    (∀ (attempt : String × Json → Except PyExn (Option (List Json)))
       (pre : List (String × Json)) (c : String × Json) (rest : List (String × Json))
       (r : List Json),
       (∀ x ∈ pre, attempt x = .ok none) →
       attempt c = .ok (some r) →
       runAttempts attempt (pre ++ c :: rest) = (.ok (some r), pre ++ [c]) ∧
       fetchWrap (runAttempts attempt (pre ++ c :: rest)) = (.ok r, pre ++ [c])) ∧
    (∀ u : String,
       (extractCombos u).map Prod.fst =
         ["https://api.firecrawl.dev/v2/extract", "https://api.firecrawl.dev/v2/extract",
          "https://api.firecrawl.dev/v1/extract", "https://api.firecrawl.dev/v1/extract"] ∧
       (extractCombos u).map Prod.snd = extractPayloads u ++ extractPayloads u) ∧
    (∀ u : String,
       (scrapeCombos u).map Prod.fst =
         ["https://api.firecrawl.dev/v2/scrape", "https://api.firecrawl.dev/v2/scrape",
          "https://api.firecrawl.dev/v2/scrape", "https://api.firecrawl.dev/v1/scrape",
          "https://api.firecrawl.dev/v1/scrape", "https://api.firecrawl.dev/v1/scrape"] ∧
       (scrapeCombos u).map Prod.snd = scrapePayloads u ++ scrapePayloads u) ∧
    scrape_jobs_with_firecrawl_extract demoHash (some "fc-key") demoUrl demoOutcome =
      (.ok [demoExtractJob], (extractCombos demoUrl).take 3) := by
  refine ⟨?_, ?_, ?_, ?_⟩
  · intro attempt pre c rest r hpre hc
    have h := runAttempts_first_success attempt pre c rest r hpre hc
    exact ⟨h, by rw [h]; rfl⟩
  · intro u
    exact ⟨rfl, rfl⟩
  · intro u
    exact ⟨rfl, rfl⟩
  · rfl

theorem fetcher_fallback_first_success_witness :
    runAttempts (fun _ => Except.ok (some [rec1])) ([] ++ ("e", Json.null) :: []) =
      (.ok (some [rec1]), [] ++ [("e", Json.null)]) :=
  (fetcher_fallback_first_success.1 (fun _ => Except.ok (some [rec1])) [] ("e", Json.null) []
    [rec1] (fun x hx => absurd hx (List.not_mem_nil x)) rfl).1

/-- C4: Fetcher error containment: an attempt whose outcome is a network
error, a non-200 response, or a 200 response with an unparseable body
makes the attempt fall through to the next combination without raising,
in both modes; and when every combination of a mode fails that way (and
the API key is set), the fetcher tries them all and returns the empty
list rather than raising. -/
theorem fetcher_error_containment :
    (∀ (pyhash : Json → Int) (r : HttpResult),
       attemptFails r = true → extractAttempt pyhash r = .ok none) ∧
    (∀ (parseFn : String → List Json) (r : HttpResult),
       attemptFails r = true → scrapeAttempt parseFn r = .ok none) ∧
    (∀ (pyhash : Json → Int) (key : Option String) (u : String)
       (outcome : String × Json → HttpResult), key.getD "" ≠ "" →
       (∀ c ∈ extractCombos u, attemptFails (outcome c) = true) →
       scrape_jobs_with_firecrawl_extract pyhash key u outcome = (.ok [], extractCombos u)) ∧
    (∀ (parseFn : String → List Json) (key : Option String) (u : String)
       (outcome : String × Json → HttpResult), key.getD "" ≠ "" →
       (∀ c ∈ scrapeCombos u, attemptFails (outcome c) = true) →
       scrape_jobs_with_firecrawl parseFn key u outcome = (.ok [], scrapeCombos u)) := by
  refine ⟨extractAttempt_fail, scrapeAttempt_fail, ?_, ?_⟩
  · intro pyhash key u outcome hk hfail
    unfold scrape_jobs_with_firecrawl_extract
    rw [if_neg hk]
    rw [runAttempts_all_fail _ _ (fun c hc => extractAttempt_fail pyhash (outcome c) (hfail c hc))]
    rfl
  · intro parseFn key u outcome hk hfail
    unfold scrape_jobs_with_firecrawl
    rw [if_neg hk]
    rw [runAttempts_all_fail _ _ (fun c hc => scrapeAttempt_fail parseFn (outcome c) (hfail c hc))]
    rfl

theorem fetcher_error_containment_witness :
    scrape_jobs_with_firecrawl_extract demoHash (some "fc-key") "u" (fun _ => .netError) =
      (.ok [], extractCombos "u") :=
  fetcher_error_containment.2.2.1 demoHash (some "fc-key") "u" (fun _ => .netError)
    (by decide) (fun c _ => rfl)

/-- C3 (counterexample): the structured-extract mode performs no title
validation: a 200 response whose `jobs` array holds a record titled
"ab" (2 characters, fewer than 5) makes the extract fetcher return that
record unchanged except for the synthesized `id`, so the pipeline does
produce a record with a title shorter than 5 characters. -/
theorem extract_mode_short_title :
    (scrape_jobs_with_firecrawl_extract demoHash (some "fc-key") demoUrl
       (fun _ => .resp 200 (.ok (.obj [("success", .bool true),
          ("data", .obj [("jobs", .arr [.obj [("title", .str "ab"),
            ("link", .str "x")]])])])))).1 =
      .ok [.obj [("title", .str "ab"), ("link", .str "x"), ("id", .num 0)]] ∧
    Json.getField (.obj [("title", .str "ab"), ("link", .str "x"), ("id", .num 0)]) "title" =
      some (.str "ab") ∧
    ("ab" : String).length < 5 := by
  exact ⟨rfl, rfl, by decide⟩

theorem send_email_nonempty (key : Option String) (d : DeliveryOutcome) (jobs : List Json)
    (hk : key.getD "" ≠ "") (hj : jobs ≠ []) :
    send_email key d jobs = .ok [.emailApiCall] := by
  unfold send_email
  rw [if_neg hk, if_neg (by simp [hj])]
  cases d <;> rfl

/-- C5 (amended): given the email API key is configured, a cycle writes
the seen set back to the state file exactly when the cycle produced a
non-empty list of new records, and in that case the event trace is the
email POST followed by the file write — for every delivery outcome, so a
failed delivery (non-2xx or network error) does not prevent the write.
(With the key missing, `send_email` raises before the write; see the
counterexample theorem.) -/
theorem check_cycle_persist_iff :
    ∀ (pyhash : Json → Int) (key : Option String) (d : DeliveryOutcome)
      (fetched : List Json) (seen : Finset String), key.getD "" ≠ "" →
      (Event.fileWrite ∈ (check_cycle pyhash key d fetched seen).2.1 ↔
         (filter_new (get_job_id pyhash) fetched seen).1 ≠ []) ∧
      ((filter_new (get_job_id pyhash) fetched seen).1 ≠ [] →
         (check_cycle pyhash key d fetched seen).2.1 =
           [Event.emailApiCall, Event.fileWrite]) := by
  intro pyhash key d fetched seen hk
  by_cases hf : fetched.isEmpty = true
  · have hfe : fetched = [] := List.isEmpty_iff.mp hf
    subst hfe
    simp [check_cycle, filter_new]
  · by_cases hp : (filter_new (get_job_id pyhash) fetched seen).1.isEmpty = true
    · have hpe : (filter_new (get_job_id pyhash) fetched seen).1 = [] :=
        List.isEmpty_iff.mp hp
      constructor
      · simp [check_cycle, hf, hp, hpe]
      · intro hne
        exact absurd hpe hne
    · have hpe : (filter_new (get_job_id pyhash) fetched seen).1 ≠ [] := by
        intro h0
        exact hp (by rw [h0]; rfl)
      have hsend := send_email_nonempty key d
        (filter_new (get_job_id pyhash) fetched seen).1 hk hpe
      constructor
      · simp [check_cycle, hf, hp, hsend, hpe]
      · intro _
        simp [check_cycle, hf, hp, hsend]

theorem check_cycle_persist_iff_witness :
    (check_cycle demoHash (some "rk") .netError [rec1] ∅).2.1 =
      [Event.emailApiCall, Event.fileWrite] :=
  (check_cycle_persist_iff demoHash (some "rk") DeliveryOutcome.netError [rec1] ∅
    (by decide)).2 (List.cons_ne_nil _ _)

/-- C5 (counterexample): with the email API key unset, a cycle that did
produce a non-empty new-records list makes no email call, raises
`ValueError` out of `send_email` (caught by the cycle's outer handler),
and performs no state-file write — refuting the unconditional
write-iff-new-records claim. -/
theorem missing_email_key_blocks_persist :
    (filter_new (get_job_id demoHash) [rec1] ∅).1 = [rec1] ∧
    check_cycle demoHash none .delivered [rec1] ∅ = ({"111"}, [], some .valueError) := by
  exact ⟨rfl, by decide⟩

/-- C7 (amended): with an empty record list the notifier makes zero
email-API calls in every configuration; when the email API key is set it
is moreover a no-op (returns at once with no effect); when the key is
unset it raises the missing-key `ValueError` before the empty-list check
(still making no API call; see the counterexample theorem).  The
pipeline itself never reaches the send with an empty new-records
list. -/
theorem send_email_empty_contract :
    (∀ (key : Option String) (d : DeliveryOutcome),
       key.getD "" ≠ "" → send_email key d [] = .ok []) ∧
    (∀ (key : Option String) (d : DeliveryOutcome), emailCalls (send_email key d []) = 0) ∧
    (∀ (pyhash : Json → Int) (key : Option String) (d : DeliveryOutcome)
       (fetched : List Json) (seen : Finset String),
       (filter_new (get_job_id pyhash) fetched seen).1 = [] →
       Event.emailApiCall ∉ (check_cycle pyhash key d fetched seen).2.1) := by
  refine ⟨?_, ?_, ?_⟩
  · intro key d hk
    unfold send_email
    rw [if_neg hk]
    rfl
  · intro key d
    by_cases hk : key.getD "" = ""
    · simp [send_email, hk, emailCalls]
    · simp [send_email, hk, emailCalls]
  · intro pyhash key d fetched seen hnew
    by_cases hf : fetched.isEmpty = true
    · simp [check_cycle, hf]
    · simp [check_cycle, hf, hnew]

theorem send_email_empty_contract_witness :
    send_email (some "rk") .delivered [] = .ok [] :=
  send_email_empty_contract.1 (some "rk") .delivered (by decide)

/-- C7 (counterexample): with the Resend key unset, calling the notifier
with an empty record list is not a no-op — the key check precedes the
empty-list check, so the call raises `ValueError` — though it still
makes zero calls to the email API. -/
theorem send_email_empty_raises_without_key :
    send_email none .delivered [] = .error .valueError ∧
    send_email none .delivered [] ≠ .ok [] := by
  exact ⟨rfl, fun h => Except.noConfusion h⟩
